import Mathlib

/-
  Verification development for the local-first persistence engine
  (LocalStorage over an IndexedDB wrapper, file src/unnamed/part_000).

  Shallow embedding: the four record tables become lists inside a DBState
  value; every asynchronous public operation of the LocalStorage class
  becomes a function DBState -> Except Err (result, DBState).  A returned
  error models an unhandled rejection, which aborts the enclosing
  transaction: the caller keeps the pre-call state (reified by runTx).

  The content hash (an external library, assumed collision resistant by
  the spec) is modelled by an injective fingerprint function md5.
-/

/-- Model of the external content-hash function.  The spec assumes it is
collision resistant, so it is modelled by an injective length-prefixed
fingerprint; no theorem below depends on its particular values beyond
determinism. -/
def md5 (s : String) : String := "h" ++ toString s.length ++ "_" ++ s

/-- Errors an operation can reject with: LocalStorageError with a message,
a store-level key-constraint rejection (Dexie add on an existing primary
key), or a thrown plain value (the sprintf throw in applyChanges, and the
DOMException thrown by window.atob on malformed base64). -/
inductive Err where
  | localStorage (msg : String)
  | constraint
  | thrown (msg : String)
deriving DecidableEq

/-- Target of a change-log entry: file name and project, as in the source
interface ChangeLog. -/
structure FileTarget where
  file : String
  project : String
deriving DecidableEq

/-- A change-log entry before it is stored (interface ChangeLog without the
auto-assigned id).  The type field is a string because remote entries may
carry any tag at runtime; applyChanges defends against unknown tags. -/
structure ChangeLog where
  type : String
  contents : Option String
  file : FileTarget
deriving DecidableEq

/-- A stored change-log entry: the entry plus its auto-increment key. -/
structure ChangeLogStored where
  id : Nat
  type : String
  contents : Option String
  file : FileTarget
deriving DecidableEq

/-- A row of the files table (FileStored).  The source field named open is
called openFlag here because open is a Lean keyword. -/
structure FileStored where
  id : String
  project : String
  name : String
  contents : Option String
  checksum : String
  last_modified : Nat
  openFlag : Nat
deriving DecidableEq

/-- A row of the projects table (ProjectStored); runs maps a question tag
to a chosen value (one binding per key), open_tabs is legacy bookkeeping. -/
structure ProjectStored where
  id : String
  name : String
  runs : List (String × String)
  last_modified : Nat
  open_tabs : List (String × String)
deriving DecidableEq

/-- A row of the settings table.  Modelled from the spec: the Interface
module defining the Settings record is not under src/; the field set
follows setSettings in the source and spec section 3. -/
structure SettingsStored where
  id : Nat
  editor_mode : String
  font_size : Nat
  font : String
  theme : Nat
  space_tab : Bool
  tab_width : Nat
deriving DecidableEq

/-- The database state: the four tables, the auto-increment counter of the
changeLogs table (Dexie keys start at 1), and the current clock read by
Date.now().  changeLogs is kept newest first, mirroring the id-descending
view orderBy(id).reverse() used by every log read. -/
structure DBState where
  files : List FileStored
  projects : List ProjectStored
  settings : List SettingsStored
  changeLogs : List ChangeLogStored
  nextLogId : Nat
  time : Nat
deriving DecidableEq

/-- A freshly connected empty database. -/
def initState : DBState :=
  { files := [], projects := [], settings := [], changeLogs := [],
    nextLogId := 1, time := 0 }

/-- Store invariant maintained by Dexie auto-increment keys: the counter is
positive, every stored log key is positive and below the counter, and the
keys are pairwise distinct. -/
def StateWF (st : DBState) : Prop :=
  0 < st.nextLogId ∧ (∀ e ∈ st.changeLogs, 0 < e.id ∧ e.id < st.nextLogId) ∧
    st.changeLogs.Pairwise (fun a b => a.id ≠ b.id)

/-- Modelled from the spec: the Interface module (not under src/) defines
the File wrapper returned by readFile; per spec section 3 it carries the
same attributes as the stored record, so it is modelled as the record
itself. -/
abbrev File := FileStored

/-- Modelled from the spec: the Interface module (not under src/) defines
FileBrief, the brief listing returned by newFile; modelled as the
identity and naming attributes of the record. -/
structure FileBrief where
  id : String
  project : String
  name : String
  last_modified : Nat
deriving DecidableEq

/-- Projection building a FileBrief from a stored record. -/
def mkFileBrief (f : FileStored) : FileBrief :=
  ⟨f.id, f.project, f.name, f.last_modified⟩

/-- Modelled from the spec: ProjectBrief (Interface module, not under
src/), the brief returned by newProject. -/
structure ProjectBrief where
  id : String
  name : String
  last_modified : Nat
deriving DecidableEq

/- Error values used by the operations, with the messages of the source. -/

/-- LocalStorageError raised by readFile on an absent id. -/
def fileNotFoundErr (fid : String) : Err :=
  .localStorage ("file \"" ++ fid ++ "\" does not exist")

/-- LocalStorageError raised by getProject on an absent id (and restated
verbatim by the dead guard in newFile). -/
def projectNotFoundErr (pid : String) : Err :=
  .localStorage ("project \"" ++ pid ++ "\" doesn\x27t exist")

/-- LocalStorageError raised by newFile when a file with the same
(name, project) pair already exists. -/
def fileExistsErr (pid nm : String) : Err :=
  .localStorage ("file \"" ++ pid ++ "\" \"" ++ nm ++ "\" already exists")

/- Table primitives (Dexie semantics). -/

/-- Dexie table.update(key, fields) on the files table: merge the given
fields into the row with that key, no-op when the key is absent. -/
def filesUpdate (fid : String) (u : FileStored → FileStored) (st : DBState) : DBState :=
  { st with files := st.files.map (fun g => if g.id == fid then u g else g) }

/-- Dexie table.update(key, fields) on the projects table. -/
def projectsUpdate (pid : String) (u : ProjectStored → ProjectStored) (st : DBState) : DBState :=
  { st with projects := st.projects.map (fun g => if g.id == pid then u g else g) }

/-- Dexie table.add on the files table: rejects with ConstraintError when
the primary key is already present, otherwise inserts the row. -/
def filesAdd (f : FileStored) (st : DBState) : Except Err DBState :=
  match st.files.find? (fun g => g.id == f.id) with
  | some _ => .error .constraint
  | none => .ok { st with files := f :: st.files }

/-- Dexie table.add on the projects table. -/
def projectsAdd (p : ProjectStored) (st : DBState) : Except Err DBState :=
  match st.projects.find? (fun q => q.id == p.id) with
  | some _ => .error .constraint
  | none => .ok { st with projects := p :: st.projects }

/-- changeLogs.put of an entry without a key: assign the next
auto-increment key, store, and return the key. -/
def changeLogsPut (c : ChangeLog) (st : DBState) : Nat × DBState :=
  (st.nextLogId,
   { st with
     changeLogs := ⟨st.nextLogId, c.type, c.contents, c.file⟩ :: st.changeLogs,
     nextLogId := st.nextLogId + 1 })

/-- topChangeLog: the entry with the greatest key, i.e. the head of the
id-descending view, or none when the log is empty (the source returns
false there). -/
def topChangeLog (st : DBState) : Option ChangeLogStored :=
  st.changeLogs.head?

/-- popChangeLog: read the top entry; when it exists and its key is truthy
(nonzero), delete it by key and return it, otherwise return none.  Dexie
keys start at 1, so the truthiness guard never fires on stored entries. -/
def popChangeLog (st : DBState) : Option ChangeLogStored × DBState :=
  match topChangeLog st with
  | none => (none, st)
  | some t =>
    if t.id ≠ 0 then
      (some t, { st with changeLogs := st.changeLogs.filter (fun e => e.id ≠ t.id) })
    else (none, st)

/-- pushChangeLog: when a top entry exists and both it and the new entry
have type editFile, pop the top entry first (coalescing); then put the new
entry and return its key.  The source compares only the type fields. -/
def pushChangeLog (c : ChangeLog) (st : DBState) : Nat × DBState :=
  let coal : Bool :=
    match topChangeLog st with
    | some t => c.type == "editFile" && t.type == "editFile"
    | none => false
  if coal then changeLogsPut c (popChangeLog st).2
  else changeLogsPut c st

/-- clearChangeLogs: bulk-clear the changeLogs table. -/
def clearChangeLogs (st : DBState) : DBState :=
  { st with changeLogs := [] }

/- Model of the browser atob (forgiving base64 decode) and of the data-URI
   regular expression used by newFile.  No theorem below depends on the
   internals of these functions; they exist so that newFile keeps the shape
   of the source. -/

/-- Value of a base64 alphabet character, none for a character outside the
alphabet. -/
def b64Index (c : Char) : Option Nat :=
  if 'A' ≤ c ∧ c ≤ 'Z' then some (c.toNat - 'A'.toNat)
  else if 'a' ≤ c ∧ c ≤ 'z' then some (c.toNat - 'a'.toNat + 26)
  else if '0' ≤ c ∧ c ≤ '9' then some (c.toNat - '0'.toNat + 52)
  else if c = '+' then some 62
  else if c = '/' then some 63
  else none

/-- Reassemble 6-bit groups into bytes; a trailing group of one character
is invalid, trailing groups of two or three characters yield one or two
bytes with the leftover bits discarded. -/
def b64Chunks : List Nat → Option (List Nat)
  | [] => some []
  | [_] => none
  | [a, b] => some [(a * 4 + b / 16) % 256]
  | [a, b, c] => some [(a * 4 + b / 16) % 256, ((b % 16) * 16 + c / 4) % 256]
  | a :: b :: c :: d :: rest =>
    (b64Chunks rest).map
      (fun t => (a * 4 + b / 16) % 256 :: ((b % 16) * 16 + c / 4) % 256
                :: ((c % 4) * 64 + d) % 256 :: t)

/-- Model of window.atob: strip ASCII whitespace, drop up to two trailing
padding characters when the length is a multiple of four, reject a
length of one modulo four or a character outside the alphabet, decode the
rest; a failure is the DOMException atob throws. -/
def atob (s : String) : Option String :=
  let d0 := s.toList.filter
    (fun c => !(c == ' ' || c == '\t' || c == '\n' || c == '\x0c' || c == '\r'))
  let d1 :=
    if d0.length % 4 == 0 then
      if d0.reverse.take 2 = ['=', '='] then d0.dropLast.dropLast
      else if d0.getLast? = some '=' then d0.dropLast
      else d0
    else d0
  if d1.length % 4 == 1 then none
  else
    match d1.mapM b64Index with
    | none => none
    | some vals =>
      (b64Chunks vals).map (fun bytes => (bytes.map Char.ofNat).asString)

/-- The dot of the data-URI pattern: in a JavaScript regular expression a
dot stops at line terminators, so the captured payload runs to the first
newline or carriage return. -/
def takeLine (s : List Char) : String :=
  (s.takeWhile (fun c => c ≠ '\n' ∧ c ≠ '\r')).asString

/-- Tail of the pattern after the optional parameter group:
an optional literal ;base64 capture followed by the comma.  Returns
whether base64 was captured and the characters after the comma. -/
def parseTail3 (s : List Char) : Option (Bool × List Char) :=
  if (";base64,".toList).isPrefixOf s then some (true, s.drop 8)
  else if s.head? = some ',' then some (false, s.drop 1)
  else none

/-- Backtracking over the greedy parameter capture: try the longest
semicolon-free capture first, down to the empty capture. -/
def tryB : Nat → List Char → Option (Bool × List Char)
  | 0, t => parseTail3 t
  | b + 1, t =>
    match parseTail3 (t.drop (b + 1)) with
    | some r => some r
    | none => tryB b t

/-- The pattern after the mime capture: an optional semicolon-led
parameter capture guarded by a negative lookahead for base64, then the
tail group. -/
def parseCont (s : List Char) : Option (Bool × List Char) :=
  match s with
  | ';' :: t =>
    if ("base64".toList).isPrefixOf t then parseTail3 s
    else
      match tryB ((t.takeWhile (fun c => c ≠ ';')).length) t with
      | some r => some r
      | none => parseTail3 s
  | _ => parseTail3 s

/-- Backtracking over the greedy mime capture of the data-URI pattern. -/
def tryA : Nat → List Char → Option (String × Bool × String)
  | 0, r => (parseCont r).map (fun p => ("", p.1, takeLine p.2))
  | a + 1, r =>
    match parseCont (r.drop (a + 1)) with
    | some p => some (((r.take (a + 1)).asString, p.1, takeLine p.2))
    | none => tryA a r

/-- Model of matching the source pattern
data:(mime)?(;params not starting base64)?(;base64)?,payload
against the start of the contents, with the greedy backtracking of a
JavaScript regular expression; returns the mime capture, whether base64
was captured, and the payload capture. -/
def matchDataURI (s : String) : Option (String × Bool × String) :=
  let l := s.toList
  if ("data:".toList).isPrefixOf l then
    let r := l.drop 5
    tryA ((r.takeWhile (fun c => c ≠ ';')).length) r
  else none

/-- The contents preprocessing of newFile (source lines 194-201): when the
base64 flag is set and the contents match the data-URI pattern with a
base64 marker (or a mime capture equal to base64), decode the payload
with atob; a decode failure is the exception atob throws, which rejects
newFile before any table is touched. -/
def decodeNewFileContents (base64 : Bool) (contents : String) : Option String :=
  if base64 then
    match matchDataURI contents with
    | some (mime, b64, payload) =>
      if b64 || mime == "base64" then atob payload
      else some contents
    | none => some contents
  else some contents

/- The public operations of the LocalStorage class.  Each is one atomic
   transaction over the four tables; an error result models an unhandled
   rejection aborting that transaction, so the caller keeps its pre-call
   state. -/

/-- readFile(fid): the stored record, or a NotFound rejection.  The
transaction only reads, so no state is returned. -/
def readFile (fid : String) (st : DBState) : Except Err File :=
  match st.files.find? (fun f => f.id == fid) with
  | some f => .ok f
  | none => .error (fileNotFoundErr fid)

/-- getProject(pid): the stored record, or a NotFound rejection. -/
def getProject (pid : String) (st : DBState) : Except Err ProjectStored :=
  match st.projects.find? (fun p => p.id == pid) with
  | some p => .ok p
  | none => .error (projectNotFoundErr pid)

/-- writeFile(fid, contents): checksum over the contents (empty when
absent), read the file, push an editFile entry carrying the new contents
under the current name and project, then update contents, checksum and
last_modified. -/
def writeFile (fid : String) (contents : Option String) (st : DBState) :
    Except Err (Unit × DBState) :=
  let checksum := match contents with | none => "" | some c => md5 c
  match readFile fid st with
  | .error e => .error e
  | .ok file =>
    let st1 := (pushChangeLog ⟨"editFile", contents, ⟨file.name, file.project⟩⟩ st).2
    .ok ((), filesUpdate fid
      (fun g => { g with contents := contents, checksum := checksum,
                         last_modified := st1.time }) st1)

/-- deleteFile(id): read the file (NotFound rejection when absent), delete
the row, push a deleteFile entry, then load the owning project to prune
runs entries whose value equals the file id and write the project back.
The falsy guard of the source after loading the project is unreachable,
because getProject rejects instead of returning a falsy value when the
project is absent; that rejection propagates and aborts the whole
transaction. -/
def deleteFile (id : String) (st : DBState) : Except Err (Unit × DBState) :=
  match readFile id st with
  | .error e => .error e
  | .ok file =>
    let st1 := { st with files := st.files.filter (fun f => !(f.id == id)) }
    let st2 := (pushChangeLog ⟨"deleteFile", none, ⟨file.name, file.project⟩⟩ st1).2
    match getProject file.project st2 with
    | .error e => .error e
    | .ok dbProj =>
      let pruned := { dbProj with runs := dbProj.runs.filter (fun qv => !(qv.2 == id)) }
      .ok ((), projectsUpdate file.project (fun _ => pruned) st2)

/-- renameFile(fid, newName): read the file, update the stored name in
place, then push a newFile entry with the old contents under the new name
followed by a deleteFile entry for the old name. -/
def renameFile (fid newName : String) (st : DBState) : Except Err (Unit × DBState) :=
  match readFile fid st with
  | .error e => .error e
  | .ok file =>
    let st1 := filesUpdate fid (fun g => { g with name := newName }) st
    let st2 := (pushChangeLog ⟨"newFile", file.contents, ⟨newName, file.project⟩⟩ st1).2
    let st3 := (pushChangeLog ⟨"deleteFile", none, ⟨file.name, file.project⟩⟩ st2).2
    .ok ((), st3)

/-- Write one binding of a runs map, replacing any binding of the same
question. -/
def runsSet (runs : List (String × String)) (q v : String) : List (String × String) :=
  (q, v) :: runs.filter (fun kv => !(kv.1 == q))

/-- setFileToRun(pid, question, filename): load the project (NotFound
rejection when absent), set runs[question] to the file name, and update
the stored runs map. -/
def setFileToRun (pid question filename : String) (st : DBState) :
    Except Err (Unit × DBState) :=
  match getProject pid st with
  | .error e => .error e
  | .ok current =>
    .ok ((), projectsUpdate pid
      (fun p => { p with runs := runsSet current.runs question filename }) st)

/-- newFile(pid, name, contents, base64): preprocess the contents (a
base64 decode failure rejects before any table is touched), then inside
the transaction: reject with AlreadyExists when a file with the same
(name, project) pair exists, load the project (the getProject rejection
carries the NotFound message the dead guard of the source would restate),
add the row with the checksum of the decoded contents, push a newFile
entry, and return the brief of the freshly read row. -/
def newFile (pid nm : String) (contents : String := "") (base64 : Bool := false)
    (st : DBState) : Except Err (FileBrief × DBState) :=
  match decodeNewFileContents base64 contents with
  | none => .error (.thrown "InvalidCharacterError")
  | some decoded =>
    let checksum := md5 decoded
    let fid := md5 (pid ++ nm)
    if (st.files.filter (fun f => f.name == nm && f.project == pid)).length > 0 then
      .error (fileExistsErr pid nm)
    else
      match getProject pid st with
      | .error e => .error e
      | .ok _ =>
        match filesAdd
          { id := fid, project := pid, name := nm, contents := some decoded,
            checksum := checksum, last_modified := st.time, openFlag := 0 } st with
        | .error e => .error e
        | .ok st1 =>
          let st2 := (pushChangeLog ⟨"newFile", some decoded, ⟨nm, pid⟩⟩ st1).2
          match readFile fid st2 with
          | .error e => .error e
          | .ok result => .ok (mkFileBrief result, st2)

/-- newProject(name): derive the id from the name, add the row with empty
runs and open_tabs (the add rejects when the id exists), and return the
brief of the freshly read row. -/
def newProject (nm : String) (st : DBState) : Except Err (ProjectBrief × DBState) :=
  let pid := md5 nm
  match projectsAdd
    { id := pid, name := nm, runs := [], last_modified := st.time,
      open_tabs := [] } st with
  | .error e => .error e
  | .ok st1 =>
    match getProject pid st1 with
    | .error e => .error e
    | .ok proj => .ok (⟨proj.id, proj.name, proj.last_modified⟩, st1)

/-- deleteProject(pid): delete the project row and every file row whose
project field matches; neither delete rejects. -/
def deleteProject (pid : String) (st : DBState) : DBState :=
  { st with projects := st.projects.filter (fun p => !(p.id == pid)),
            files := st.files.filter (fun f => !(f.project == pid)) }

/-- addOpenTab(proj, question, fid): set the openFlag of the row to 1; a
Dexie update of an absent key is a no-op, so this never rejects. -/
def addOpenTab (proj question fid : String) (st : DBState) :
    Except Err (Unit × DBState) :=
  .ok ((), filesUpdate fid (fun f => { f with openFlag := 1 }) st)

/-- removeOpenTab(proj, question, fid): set the openFlag of the row to 0;
never rejects. -/
def removeOpenTab (proj question fid : String) (st : DBState) :
    Except Err (Unit × DBState) :=
  .ok ((), filesUpdate fid (fun f => { f with openFlag := 0 }) st)

/-- Dispatch of one remote change inside applyChanges: re-derive the
project id from the project name and the file id from it and the file
name, then dispatch on the type tag; an unrecognized tag throws the
sprintf-formatted string, which the sprintf %s conversion renders as
[object Object]. -/
def applyOneChange (change : ChangeLog) (st : DBState) : Except Err DBState :=
  let pid := md5 change.file.project
  let fid := md5 (pid ++ change.file.file)
  if change.type == "deleteFile" then
    (deleteFile fid st).map (fun r => r.2)
  else if change.type == "editFile" then
    (writeFile fid change.contents st).map (fun r => r.2)
  else if change.type == "newFile" then
    (newFile pid change.file.file (change.contents.getD "") false st).map (fun r => r.2)
  else
    .error (.thrown "applyChanges: unknown change [object Object]!")

/-- The first loop of applyChanges: create each named project in order. -/
def newProjectsLoop : List String → DBState → Except Err DBState
  | [], st => .ok st
  | nm :: rest, st =>
    match newProject nm st with
    | .error e => .error e
    | .ok (_, st1) => newProjectsLoop rest st1

/-- The second loop of applyChanges: replay each remote change in order. -/
def changesLoop : List ChangeLog → DBState → Except Err DBState
  | [], st => .ok st
  | c :: rest, st =>
    match applyOneChange c st with
    | .error e => .error e
    | .ok st1 => changesLoop rest st1

/-- The third loop of applyChanges: delete each listed project. -/
def deleteProjectsLoop : List String → DBState → DBState
  | [], st => st
  | pid :: rest, st => deleteProjectsLoop rest (deleteProject pid st)

/-- applyChanges(changeLogs, newProjects, deletedProjects): one
transaction that creates the new projects, replays the remote changes,
deletes the listed projects, and clears the local change log; any
rejection of any step propagates and aborts the whole batch. -/
def applyChanges (changeLogs : List ChangeLog) (newProjects : List String)
    (deletedProjects : List String) (st : DBState) : Except Err (Unit × DBState) :=
  match newProjectsLoop newProjects st with
  | .error e => .error e
  | .ok st1 =>
    match changesLoop changeLogs st1 with
    | .error e => .error e
    | .ok st2 =>
      .ok ((), clearChangeLogs (deleteProjectsLoop deletedProjects st2))

/-- The transaction boundary of the storage engine (assumed by the spec):
running an operation against a state either commits the new state or, on
an unhandled rejection, aborts and leaves the state exactly as it was. -/
def runTx {α : Type} (f : DBState → Except Err (α × DBState)) (st : DBState) :
    Option α × DBState :=
  match f st with
  | .ok (a, st1) => (some a, st1)
  | .error _ => (none, st)

/-- The stored record created by a successful newFile. -/
def newFileRecord (pid nm decoded : String) (t : Nat) : FileStored :=
  { id := md5 (pid ++ nm), project := pid, name := nm, contents := some decoded,
    checksum := md5 decoded, last_modified := t, openFlag := 0 }

/-- The field patch a writeFile applies to the stored row. -/
def writeFilePatch (co : Option String) (t : Nat) (g : FileStored) : FileStored :=
  { g with contents := co,
           checksum := (match co with | none => "" | some c => md5 c),
           last_modified := t }

/-- The runs pruning a deleteFile applies to the owning project. -/
def deleteFilePrune (id : String) (p : ProjectStored) : ProjectStored :=
  { p with runs := p.runs.filter (fun qv => !(qv.2 == id)) }

/- Concrete scenarios used by individual claims. -/

/-- A state holding one file whose owning project is absent: the situation
reached when a project was deleted through a different path than its
children (the situation the deleteFile warning comment describes). -/
def orphanFileState : DBState :=
  { files := [⟨"f0", "p0", "a", some "x", md5 "x", 0, 0⟩],
    projects := [], settings := [], changeLogs := [], nextLogId := 1, time := 0 }

/-- Create a project, add a file, point runs at it through setFileToRun,
then delete the file. -/
def staleRunScenario : Except Err DBState :=
  match newProject "P" initState with
  | .error e => .error e
  | .ok (_, s1) =>
    match newFile (md5 "P") "q1/main.c" "x" false s1 with
    | .error e => .error e
    | .ok (_, s2) =>
      match setFileToRun (md5 "P") "q1" "q1/main.c" s2 with
      | .error e => .error e
      | .ok (_, s3) =>
        match deleteFile (md5 (md5 "P" ++ "q1/main.c")) s3 with
        | .error e => .error e
        | .ok (_, s4) => .ok s4

/-- Create a project, add file A, rename it to B. -/
def afterRenameChain : Except Err DBState :=
  match newProject "P" initState with
  | .error e => .error e
  | .ok (_, s1) =>
    match newFile (md5 "P") "A" "x" false s1 with
    | .error e => .error e
    | .ok (_, s2) =>
      match renameFile (md5 (md5 "P" ++ "A")) "B" s2 with
      | .error e => .error e
      | .ok (_, s3) => .ok s3

/-- The state after the rename chain. -/
def renameRecreateState : DBState :=
  match afterRenameChain with
  | .ok s => s
  | .error _ => initState

/-- A state whose change-log top is an editFile entry for file f1. -/
def crossTargetState : DBState :=
  { files := [], projects := [], settings := [],
    changeLogs := [⟨1, "editFile", some "x", ⟨"f1", "p"⟩⟩], nextLogId := 2, time := 0 }

/-- A state holding the project named P and nothing else, as newProject
leaves it. -/
def projectPState : DBState :=
  { files := [], projects := [⟨md5 "P", "P", [], 0, []⟩], settings := [],
    changeLogs := [], nextLogId := 1, time := 0 }

/-- A state holding the project named P and its single file A with
contents x, an empty change log and a fresh counter. -/
def afterNewFileAState : DBState :=
  { files := [newFileRecord (md5 "P") "A" "x" 0],
    projects := [⟨md5 "P", "P", [], 0, []⟩], settings := [],
    changeLogs := [], nextLogId := 1, time := 0 }

/- Helper lemmas about the table primitives. -/

/-- A conditional rewrite that touches no element leaves a list unchanged. -/
theorem map_if_eq_self {α : Type} (p : α → Bool) (u : α → α) (l : List α)
    (h : ∀ a ∈ l, p a = false) :
    (l.map fun a => if p a then u a else a) = l := by
  induction l with
  | nil => rfl
  | cons x xs ih =>
    have hx := h x (List.mem_cons_self x xs)
    simp only [List.map_cons, hx, if_neg Bool.false_ne_true, List.cons.injEq,
      Bool.false_eq_true, if_false, true_and]
    exact ih fun a ha => h a (List.mem_cons_of_mem x ha)

/-- A filter whose predicate holds on every element leaves a list
unchanged. -/
theorem filter_eq_self_of_true {α : Type} (p : α → Bool) (l : List α)
    (h : ∀ a ∈ l, p a = true) : l.filter p = l :=
  List.filter_eq_self.mpr h

/-- The put step prepends an entry carrying the current counter. -/
theorem changeLogsPut_spec (c : ChangeLog) (st : DBState) :
    changeLogsPut c st =
      (st.nextLogId,
       { st with changeLogs := ⟨st.nextLogId, c.type, c.contents, c.file⟩ :: st.changeLogs,
                 nextLogId := st.nextLogId + 1 }) := rfl

/-- Pushing an entry whose type is not editFile never coalesces. -/
theorem pushChangeLog_non_edit (c : ChangeLog) (st : DBState)
    (h : c.type ≠ "editFile") :
    pushChangeLog c st = changeLogsPut c st := by
  unfold pushChangeLog
  have hb : (c.type == "editFile") = false := beq_eq_false_iff_ne.mpr h
  cases hl : st.changeLogs with
  | nil => simp [topChangeLog, hl]
  | cons t rest => simp [topChangeLog, hl, hb]

/-- Pushing onto an empty log never coalesces. -/
theorem pushChangeLog_empty (c : ChangeLog) (st : DBState)
    (h : st.changeLogs = []) :
    pushChangeLog c st = changeLogsPut c st := by
  unfold pushChangeLog
  simp [topChangeLog, h]

/-- Pushing onto a log whose top entry is not of type editFile never
coalesces. -/
theorem pushChangeLog_top_non_edit (c : ChangeLog) (st : DBState)
    (t : ChangeLogStored) (rest : List ChangeLogStored)
    (hl : st.changeLogs = t :: rest) (h : t.type ≠ "editFile") :
    pushChangeLog c st = changeLogsPut c st := by
  unfold pushChangeLog
  have hb : (t.type == "editFile") = false := beq_eq_false_iff_ne.mpr h
  simp [topChangeLog, hl, hb]

/-- Pushing an editFile entry onto a log whose top entry is also of type
editFile removes the top entry, whatever either target is, and stores the
new entry under the current counter. -/
theorem pushChangeLog_coalesce (c : ChangeLog) (st : DBState)
    (t : ChangeLogStored) (rest : List ChangeLogStored)
    (hwf : StateWF st) (hl : st.changeLogs = t :: rest)
    (hc : c.type = "editFile") (ht : t.type = "editFile") :
    pushChangeLog c st =
      (st.nextLogId,
       { st with changeLogs := ⟨st.nextLogId, c.type, c.contents, c.file⟩ :: rest,
                 nextLogId := st.nextLogId + 1 }) := by
  have htid : 0 < t.id := (hwf.2.1 t (by rw [hl]; exact List.mem_cons_self t rest)).1
  have h1 : ∀ e ∈ rest, e.id ≠ t.id := by
    intro e he
    have h2 := (List.pairwise_cons.mp (hl ▸ hwf.2.2)).1 e he
    exact fun hh => h2 hh.symm
  unfold pushChangeLog popChangeLog
  have hcb : (c.type == "editFile") = true := beq_iff_eq.mpr hc
  have htb : (t.type == "editFile") = true := beq_iff_eq.mpr ht
  simp only [topChangeLog, hl, List.head?_cons, hcb, htb, Bool.and_self, if_true]
  have hne : t.id ≠ 0 := Nat.pos_iff_ne_zero.mp htid
  simp only [hne, ne_eq, not_false_eq_true, if_true]
  have hfilt : st.changeLogs.filter (fun e => decide (¬ e.id = t.id)) = rest := by
    rw [hl, List.filter_cons_of_neg (by simp)]
    exact List.filter_eq_self.mpr (by intro a ha; simpa using h1 a ha)
  simp [changeLogsPut, hfilt, hl]
  intro a ha
  exact h1 a ha

/-- popChangeLog touches only the changeLogs table. -/
theorem popChangeLog_fields (st : DBState) :
    (popChangeLog st).2.files = st.files ∧ (popChangeLog st).2.projects = st.projects ∧
    (popChangeLog st).2.settings = st.settings ∧
    (popChangeLog st).2.nextLogId = st.nextLogId ∧ (popChangeLog st).2.time = st.time := by
  unfold popChangeLog
  cases topChangeLog st with
  | none => exact ⟨rfl, rfl, rfl, rfl, rfl⟩
  | some t =>
    dsimp only
    split
    · exact ⟨rfl, rfl, rfl, rfl, rfl⟩
    · exact ⟨rfl, rfl, rfl, rfl, rfl⟩

/-- pushChangeLog touches only the changeLogs table and its counter; the
new entry goes to the top under the pre-push counter value, which then
advances by one. -/
theorem pushChangeLog_fields (c : ChangeLog) (st : DBState) :
    (pushChangeLog c st).2.files = st.files ∧ (pushChangeLog c st).2.projects = st.projects ∧
    (pushChangeLog c st).2.settings = st.settings ∧
    (pushChangeLog c st).2.nextLogId = st.nextLogId + 1 ∧
    (pushChangeLog c st).2.time = st.time ∧
    (∃ rest, (pushChangeLog c st).2.changeLogs =
      ⟨st.nextLogId, c.type, c.contents, c.file⟩ :: rest) ∧
    (pushChangeLog c st).1 = st.nextLogId := by
  unfold pushChangeLog
  dsimp only
  split
  · obtain ⟨h1, h2, h3, h4, h5⟩ := popChangeLog_fields st
    refine ⟨?_, ?_, ?_, ?_, ?_, ⟨(popChangeLog st).2.changeLogs, ?_⟩, ?_⟩ <;>
      simp [changeLogsPut, h1, h2, h3, h4, h5]
  · exact ⟨rfl, rfl, rfl, rfl, rfl, ⟨st.changeLogs, rfl⟩, rfl⟩

/-- Success case of newFile: the contents decode, no file with the same
name and project exists, the project is present, and the derived id is
free; the row is stored with the checksum of the decoded contents, a
newFile entry is pushed, and the brief of the row is returned. -/
theorem newFile_ok (pid nm contents : String) (base64 : Bool) (decoded : String)
    (st : DBState) (proj : ProjectStored)
    (hdec : decodeNewFileContents base64 contents = some decoded)
    (hempty : st.files.filter (fun f => f.name == nm && f.project == pid) = [])
    (hproj : st.projects.find? (fun p => p.id == pid) = some proj)
    (hfid : st.files.find? (fun f => f.id == md5 (pid ++ nm)) = none) :
    newFile pid nm contents base64 st =
      .ok (mkFileBrief (newFileRecord pid nm decoded st.time),
        { st with files := newFileRecord pid nm decoded st.time :: st.files,
                  changeLogs := ⟨st.nextLogId, "newFile", some decoded, ⟨nm, pid⟩⟩ :: st.changeLogs,
                  nextLogId := st.nextLogId + 1 }) := by
  have hne : ("newFile" : String) ≠ "editFile" := by decide
  have hpush := pushChangeLog_non_edit ⟨"newFile", some decoded, ⟨nm, pid⟩⟩
    { st with files := newFileRecord pid nm decoded st.time :: st.files } hne
  dsimp only [newFileRecord] at hpush ⊢
  unfold newFile getProject
  rw [hdec]
  dsimp only
  rw [hempty]
  simp only [List.length_nil, gt_iff_lt, Nat.lt_irrefl, if_false]
  rw [hproj]
  dsimp only
  unfold filesAdd
  dsimp only
  rw [hfid]
  dsimp only
  rw [hpush]
  unfold readFile changeLogsPut
  dsimp only
  rw [List.find?_cons_of_pos _ (by simp)]

/-- Success case of writeFile: the file exists; an editFile entry with the
new contents under the current name and project is pushed, and the row is
patched with contents, checksum and timestamp. -/
theorem writeFile_ok (fid : String) (co : Option String) (st : DBState) (f : FileStored)
    (hf : st.files.find? (fun g => g.id == fid) = some f) :
    writeFile fid co st = .ok ((),
      { (pushChangeLog ⟨"editFile", co, ⟨f.name, f.project⟩⟩ st).2 with
        files := st.files.map (fun g => if g.id == fid then writeFilePatch co st.time g else g) }) := by
  obtain ⟨h1, h2, h3, h4, h5, h6, h7⟩ :=
    pushChangeLog_fields ⟨"editFile", co, ⟨f.name, f.project⟩⟩ st
  unfold writeFile readFile
  rw [hf]
  dsimp only
  unfold filesUpdate writeFilePatch
  simp only [h1, h5]

/-- Success case of deleteFile: the file and its owning project exist; the
row is removed, a deleteFile entry is pushed, and runs entries whose value
equals the file id are pruned from the project. -/
theorem deleteFile_ok (id : String) (st : DBState) (f : FileStored) (proj : ProjectStored)
    (hf : st.files.find? (fun g => g.id == id) = some f)
    (hproj : st.projects.find? (fun p => p.id == f.project) = some proj) :
    deleteFile id st = .ok ((),
      { st with
        files := st.files.filter (fun g => !(g.id == id)),
        projects := st.projects.map (fun q => if q.id == f.project then deleteFilePrune id proj else q),
        changeLogs := ⟨st.nextLogId, "deleteFile", none, ⟨f.name, f.project⟩⟩ :: st.changeLogs,
        nextLogId := st.nextLogId + 1 }) := by
  have hne : ("deleteFile" : String) ≠ "editFile" := by decide
  have hpush := pushChangeLog_non_edit ⟨"deleteFile", none, ⟨f.name, f.project⟩⟩
    { st with files := st.files.filter (fun g => !(g.id == id)) } hne
  unfold deleteFile readFile
  rw [hf]
  dsimp only
  rw [hpush]
  unfold getProject changeLogsPut
  dsimp only
  rw [hproj]
  dsimp only
  unfold projectsUpdate deleteFilePrune
  dsimp only

/-- pushChangeLog preserves the key invariant. -/
theorem pushChangeLog_WF (c : ChangeLog) (st : DBState) (hwf : StateWF st) :
    StateWF (pushChangeLog c st).2 := by
  obtain ⟨hpos, hmem, hpw⟩ := hwf
  have hsub : (popChangeLog st).2.changeLogs.Sublist st.changeLogs := by
    unfold popChangeLog
    cases topChangeLog st with
    | none => exact List.Sublist.refl _
    | some t =>
      dsimp only
      split
      · exact List.filter_sublist _
      · exact List.Sublist.refl _
  have hid : (popChangeLog st).2.nextLogId = st.nextLogId := (popChangeLog_fields st).2.2.2.1
  unfold pushChangeLog
  dsimp only
  split
  · refine ⟨?_, ?_, ?_⟩
    · simp only [changeLogsPut, hid]
      exact Nat.succ_pos _
    · intro e he
      simp only [changeLogsPut, hid, List.mem_cons] at he ⊢
      rcases he with h | h
      · subst h; exact ⟨hpos, Nat.lt_succ_self _⟩
      · have := hmem e (hsub.mem h)
        exact ⟨this.1, Nat.lt_succ_of_lt this.2⟩
    · simp only [changeLogsPut, hid]
      refine List.pairwise_cons.mpr ⟨?_, hpw.sublist hsub⟩
      intro e he
      dsimp only
      have := hmem e (hsub.mem he)
      exact fun hh => absurd (hh ▸ this.2) (Nat.lt_irrefl _)
  · refine ⟨?_, ?_, ?_⟩
    · simp only [changeLogsPut]
      exact Nat.succ_pos _
    · intro e he
      simp only [changeLogsPut, List.mem_cons] at he ⊢
      rcases he with h | h
      · subst h; exact ⟨hpos, Nat.lt_succ_self _⟩
      · have := hmem e h
        exact ⟨this.1, Nat.lt_succ_of_lt this.2⟩
    · simp only [changeLogsPut]
      refine List.pairwise_cons.mpr ⟨?_, hpw⟩
      intro e he
      dsimp only
      have := hmem e he
      exact fun hh => absurd (hh ▸ this.2) (Nat.lt_irrefl _)

/-- C8: deleteFile on an id that is absent fails with NotFound, as the
claim states; but on a file whose owning project no longer exists the
operation does not complete with the row removed and a deleteFile entry
pushed: getProject rejects with its NotFound error, the rejection
propagates, and the aborted transaction leaves the whole state unchanged,
so the file is kept and nothing is logged.  The falsy-project guard in the
source that was meant to warn and return is unreachable. -/
theorem deleteFile_orphan_project_raises :
    deleteFile "f1" orphanFileState = .error (fileNotFoundErr "f1") ∧
    deleteFile "f0" orphanFileState = .error (projectNotFoundErr "p0") ∧
    runTx (deleteFile "f0") orphanFileState = (none, orphanFileState) :=
  ⟨rfl, rfl, rfl⟩

/-- C3 (failing input): after creating project P with file q1/main.c,
installing runs[q1] = q1/main.c through setFileToRun, and deleting the
file, the file table is empty while the runs entry still names the
deleted file: deleteFile pruned nothing because it compares runs values
against the file id, whereas setFileToRun stores the file name. -/
theorem deleteFile_leaves_stale_run_entry :
    Except.map (fun s =>
        (s.files, (s.projects.find? (fun p => p.id == md5 "P")).map (fun p => p.runs)))
      staleRunScenario
      = .ok ([], some [("q1", "q1/main.c")]) := rfl

/-- C5 (counterexample): pushing an editFile entry for file f2 onto a log
whose top entry is an editFile entry for the different file f1 removes the
f1 entry, leaving a single entry, not both, contradicting the claim that
coalescing only collapses entries affecting the same target. -/
theorem pushChangeLog_cross_target_cx :
    (pushChangeLog ⟨"editFile", some "y", ⟨"f2", "p"⟩⟩ crossTargetState).2.changeLogs
      = [⟨2, "editFile", some "y", ⟨"f2", "p"⟩⟩] := rfl

/-- C9 (counterexample): newProject succeeds on the empty store and leaves
the change log without any entry, contradicting the claim that every
mutating Project operation creates at least one change-log entry. -/
theorem newProject_creates_no_log_entry_cx :
    Except.map (fun r => r.2.changeLogs) (newProject "P" initState) = .ok [] := rfl

/-- C5 (amended): pushChangeLog coalesces by entry type alone: when both
the new entry and the current top entry have type editFile the top entry
is removed whatever either target is; when the new entry or the top entry
has another type (or the log is empty) the new entry is appended and
nothing is removed. -/
theorem pushChangeLog_type_only_coalescing :
    (∀ st c t rest, StateWF st → st.changeLogs = t :: rest → c.type = "editFile" →
      t.type = "editFile" →
      (pushChangeLog c st).2.changeLogs =
        ⟨st.nextLogId, c.type, c.contents, c.file⟩ :: rest) ∧
    (∀ st c, c.type ≠ "editFile" →
      (pushChangeLog c st).2.changeLogs =
        ⟨st.nextLogId, c.type, c.contents, c.file⟩ :: st.changeLogs) ∧
    (∀ st c t rest, st.changeLogs = t :: rest → t.type ≠ "editFile" →
      (pushChangeLog c st).2.changeLogs =
        ⟨st.nextLogId, c.type, c.contents, c.file⟩ :: st.changeLogs) := by
  refine ⟨?_, ?_, ?_⟩
  · intro st c t rest hwf hl hc ht
    rw [pushChangeLog_coalesce c st t rest hwf hl hc ht]
  · intro st c hc
    rw [pushChangeLog_non_edit c st hc]
    rfl
  · intro st c t rest hl ht
    rw [pushChangeLog_top_non_edit c st t rest hl ht]
    rfl

/-- Witness for the amended coalescing theorem at concrete inputs: a
cross-target editFile push coalesces, a deleteFile push appends. -/
theorem pushChangeLog_type_only_coalescing_witness :
    (pushChangeLog ⟨"editFile", some "z", ⟨"f9", "q"⟩⟩ crossTargetState).2.changeLogs
      = [⟨2, "editFile", some "z", ⟨"f9", "q"⟩⟩] ∧
    (pushChangeLog ⟨"deleteFile", none, ⟨"f1", "p"⟩⟩ crossTargetState).2.changeLogs
      = ⟨2, "deleteFile", none, ⟨"f1", "p"⟩⟩ :: crossTargetState.changeLogs := by
  constructor
  · exact pushChangeLog_type_only_coalescing.1 crossTargetState
      ⟨"editFile", some "z", ⟨"f9", "q"⟩⟩ ⟨1, "editFile", some "x", ⟨"f1", "p"⟩⟩ []
      (by refine ⟨by decide, ?_, ?_⟩ <;> decide) rfl rfl rfl
  · exact pushChangeLog_type_only_coalescing.2.1 crossTargetState
      ⟨"deleteFile", none, ⟨"f1", "p"⟩⟩ (by decide)

/-- C7 (counterexample): after creating file A in project P and renaming
it to B, no file named A exists in P and the project exists, yet newFile
for A fails with the store constraint rejection (the stale row keeps the
derived id), which is neither the AlreadyExists error nor the NotFound
error, contradicting the claim that newFile otherwise succeeds. -/
theorem newFile_after_rename_cx :
    afterRenameChain = .ok renameRecreateState ∧
    renameRecreateState.files.filter
        (fun f => f.name == "A" && f.project == md5 "P") = [] ∧
    (renameRecreateState.projects.find? (fun p => p.id == md5 "P")).isSome = true ∧
    newFile (md5 "P") "A" "" false renameRecreateState = .error .constraint ∧
    Err.constraint ≠ fileExistsErr (md5 "P") "A" ∧
    Err.constraint ≠ projectNotFoundErr (md5 "P") :=
  ⟨rfl, rfl, rfl, rfl, fun h => Err.noConfusion h, fun h => Err.noConfusion h⟩

/-- C7 (amended): provided the contents decode (when base64 decoding
applies), newFile fails with AlreadyExists exactly when a file with the
same (name, projectId) pair exists; otherwise it fails with NotFound when
the project does not exist; otherwise, when the derived id is still
occupied by another row (which renameFile can leave behind, the known
identity gap), it fails with the store constraint rejection; and only
otherwise does it succeed, storing the record with checksum computed over
the decoded contents, pushing a newFile entry, and returning the created
file. -/
theorem newFile_spec_amended (pid nm contents : String) (base64 : Bool)
    (st : DBState) (decoded : String)
    (hdec : decodeNewFileContents base64 contents = some decoded) :
    (st.files.filter (fun f => f.name == nm && f.project == pid) ≠ [] →
      newFile pid nm contents base64 st = .error (fileExistsErr pid nm)) ∧
    (st.files.filter (fun f => f.name == nm && f.project == pid) = [] →
      st.projects.find? (fun p => p.id == pid) = none →
      newFile pid nm contents base64 st = .error (projectNotFoundErr pid)) ∧
    (∀ proj, st.files.filter (fun f => f.name == nm && f.project == pid) = [] →
      st.projects.find? (fun p => p.id == pid) = some proj →
      st.files.find? (fun f => f.id == md5 (pid ++ nm)) ≠ none →
      newFile pid nm contents base64 st = .error Err.constraint) ∧
    (∀ proj, st.files.filter (fun f => f.name == nm && f.project == pid) = [] →
      st.projects.find? (fun p => p.id == pid) = some proj →
      st.files.find? (fun f => f.id == md5 (pid ++ nm)) = none →
      newFile pid nm contents base64 st =
        .ok (mkFileBrief (newFileRecord pid nm decoded st.time),
          { st with
            files := newFileRecord pid nm decoded st.time :: st.files,
            changeLogs := ⟨st.nextLogId, "newFile", some decoded, ⟨nm, pid⟩⟩ :: st.changeLogs,
            nextLogId := st.nextLogId + 1 })) := by
  refine ⟨?_, ?_, ?_, ?_⟩
  · intro hne
    have hpos : 0 < (st.files.filter (fun f => f.name == nm && f.project == pid)).length :=
      List.length_pos.mpr hne
    unfold newFile
    rw [hdec]
    dsimp only
    rw [if_pos hpos]
  · intro hempty hnone
    unfold newFile getProject
    rw [hdec]
    dsimp only
    rw [hempty]
    simp only [List.length_nil, gt_iff_lt, Nat.lt_irrefl, if_false]
    rw [hnone]
  · intro proj hempty hproj hfid
    obtain ⟨g, hg⟩ := Option.ne_none_iff_exists'.mp hfid
    unfold newFile getProject filesAdd
    rw [hdec]
    dsimp only
    rw [hempty]
    simp only [List.length_nil, gt_iff_lt, Nat.lt_irrefl, if_false]
    rw [hproj]
    dsimp only
    rw [hg]
  · intro proj hempty hproj hfid
    exact newFile_ok pid nm contents base64 decoded st proj hdec hempty hproj hfid

/-- Witness for the amended newFile theorem: creating file f with contents
hello in the project named P succeeds and stores the expected row, log
entry and counter. -/
theorem newFile_spec_amended_witness :
    newFile (md5 "P") "f" "hello" false projectPState =
      .ok (mkFileBrief (newFileRecord (md5 "P") "f" "hello" 0),
        { projectPState with
          files := [newFileRecord (md5 "P") "f" "hello" 0],
          changeLogs := [⟨1, "newFile", some "hello", ⟨"f", md5 "P"⟩⟩],
          nextLogId := 2 }) := by
  exact (newFile_spec_amended (md5 "P") "f" "hello" false projectPState "hello" rfl).2.2.2
    ⟨md5 "P", "P", [], 0, []⟩ rfl rfl rfl

/-- C10: on a file id absent from the Files table, addOpenTab and
removeOpenTab complete without any error and leave the state (all four
tables) unchanged, while readFile, writeFile and deleteFile reject with
the NotFound error for that id. -/
theorem openTab_absent_id_noop (proj q fid : String) (co : Option String) (st : DBState)
    (h : st.files.find? (fun f => f.id == fid) = none) :
    addOpenTab proj q fid st = .ok ((), st) ∧
    removeOpenTab proj q fid st = .ok ((), st) ∧
    readFile fid st = .error (fileNotFoundErr fid) ∧
    writeFile fid co st = .error (fileNotFoundErr fid) ∧
    deleteFile fid st = .error (fileNotFoundErr fid) := by
  have hall : ∀ g ∈ st.files, (g.id == fid) = false := by
    intro g hg
    have := List.find?_eq_none.mp h g hg
    simpa using this
  have hmap : ∀ u : FileStored → FileStored,
      st.files.map (fun g => if g.id == fid then u g else g) = st.files :=
    fun u => map_if_eq_self _ u st.files hall
  refine ⟨?_, ?_, ?_, ?_, ?_⟩
  · unfold addOpenTab filesUpdate
    rw [hmap]
  · unfold removeOpenTab filesUpdate
    rw [hmap]
  · unfold readFile
    rw [h]
  · unfold writeFile readFile
    rw [h]
  · unfold deleteFile readFile
    rw [h]

/-- Witness for the open-tab theorem: on the empty store, both tab
operations return the state unchanged and the three file operations
reject. -/
theorem openTab_absent_id_noop_witness :
    addOpenTab "p" "q1" "f0" initState = .ok ((), initState) ∧
    removeOpenTab "p" "q1" "f0" initState = .ok ((), initState) ∧
    readFile "f0" initState = .error (fileNotFoundErr "f0") ∧
    writeFile "f0" (some "x") initState = .error (fileNotFoundErr "f0") ∧
    deleteFile "f0" initState = .error (fileNotFoundErr "f0") :=
  openTab_absent_id_noop "p" "q1" "f0" (some "x") initState rfl

/-- C6: renameFile on an existing file updates the stored name in place
(no other field of any row changes) and appends exactly two change-log
entries, chronologically a newFile entry carrying the old contents under
the new name and then a deleteFile entry for the old name; the rest of
the log is untouched. -/
theorem renameFile_logs_two_entries (fid newName : String) (st : DBState) (f : FileStored)
    (hf : st.files.find? (fun g => g.id == fid) = some f) :
    renameFile fid newName st = .ok ((),
      { st with
        files := st.files.map (fun g => if g.id == fid then { g with name := newName } else g),
        changeLogs := ⟨st.nextLogId + 1, "deleteFile", none, ⟨f.name, f.project⟩⟩ ::
          ⟨st.nextLogId, "newFile", f.contents, ⟨newName, f.project⟩⟩ :: st.changeLogs,
        nextLogId := st.nextLogId + 2 }) := by
  have hne1 : ("newFile" : String) ≠ "editFile" := by decide
  have hne2 : ("deleteFile" : String) ≠ "editFile" := by decide
  unfold renameFile readFile
  rw [hf]
  dsimp only
  unfold filesUpdate
  rw [pushChangeLog_non_edit ⟨"newFile", f.contents, ⟨newName, f.project⟩⟩ _ hne1]
  rw [pushChangeLog_non_edit ⟨"deleteFile", none, ⟨f.name, f.project⟩⟩ _ hne2]
  unfold changeLogsPut
  dsimp only

/-- Witness for the rename theorem: renaming the only file of the P
project state produces exactly the stated row update and the two log
entries. -/
theorem renameFile_logs_two_entries_witness :
    renameFile (md5 (md5 "P" ++ "A")) "B" afterNewFileAState = .ok ((),
      { afterNewFileAState with
        files := [{ newFileRecord (md5 "P") "A" "x" 0 with name := "B" }],
        changeLogs := [⟨2, "deleteFile", none, ⟨"A", md5 "P"⟩⟩,
          ⟨1, "newFile", some "x", ⟨"B", md5 "P"⟩⟩],
        nextLogId := 3 }) := by
  have h := renameFile_logs_two_entries (md5 (md5 "P" ++ "A")) "B" afterNewFileAState
    (newFileRecord (md5 "P") "A" "x" 0) rfl
  exact h

/-- C4: two consecutive writeFile calls on the same existing file leave
exactly one editFile entry at the top of the change log for the burst,
carrying the second contents: the entry pushed by the first call is
removed when the second call pushes, and the rest of the log is the same
list X after either call. -/
theorem writeFile_coalesces_burst (fid y z : String) (st : DBState) (f : FileStored)
    (hwf : StateWF st)
    (hf : st.files.find? (fun g => g.id == fid) = some f) :
    ∃ X st1 st2,
      writeFile fid (some y) st = .ok ((), st1) ∧
      writeFile fid (some z) st1 = .ok ((), st2) ∧
      st1.changeLogs = ⟨st.nextLogId, "editFile", some y, ⟨f.name, f.project⟩⟩ :: X ∧
      st2.changeLogs = ⟨st.nextLogId + 1, "editFile", some z, ⟨f.name, f.project⟩⟩ :: X := by
  obtain ⟨h1, h2, h3, h4, h5, ⟨X, hX⟩, h7⟩ :=
    pushChangeLog_fields ⟨"editFile", some y, ⟨f.name, f.project⟩⟩ st
  have hw1 := writeFile_ok fid (some y) st f hf
  set st1 : DBState :=
    { (pushChangeLog ⟨"editFile", some y, ⟨f.name, f.project⟩⟩ st).2 with
      files := st.files.map (fun g => if g.id == fid then writeFilePatch (some y) st.time g else g) }
    with hst1
  have hwf1 : StateWF st1 :=
    pushChangeLog_WF ⟨"editFile", some y, ⟨f.name, f.project⟩⟩ st hwf
  have hcomp : ∀ g : FileStored,
      ((if g.id == fid then writeFilePatch (some y) st.time g else g).id == fid)
        = (g.id == fid) := by
    intro g
    by_cases hg : (g.id == fid) = true
    · rw [if_pos hg, writeFilePatch]
    · rw [if_neg hg]
  have hf2 : st1.files.find? (fun g => g.id == fid)
      = some (writeFilePatch (some y) st.time f) := by
    show (st.files.map (fun g => if g.id == fid then writeFilePatch (some y) st.time g else g)).find?
      (fun g => g.id == fid) = some (writeFilePatch (some y) st.time f)
    rw [List.find?_map]
    have hfun : ((fun g : FileStored => g.id == fid) ∘
        (fun g => if g.id == fid then writeFilePatch (some y) st.time g else g))
        = (fun g : FileStored => g.id == fid) := by
      funext g
      exact hcomp g
    rw [hfun, hf]
    show some (if (f.id == fid) = true then writeFilePatch (some y) st.time f else f) = _
    rw [if_pos (List.find?_some hf)]
  have hw2 := writeFile_ok fid (some z) st1 (writeFilePatch (some y) st.time f) hf2
  have hl1 : st1.changeLogs = ⟨st.nextLogId, "editFile", some y, ⟨f.name, f.project⟩⟩ :: X := hX
  have hn1 : st1.nextLogId = st.nextLogId + 1 := h4
  have hcoal := pushChangeLog_coalesce
    ⟨"editFile", some z, ⟨(writeFilePatch (some y) st.time f).name,
      (writeFilePatch (some y) st.time f).project⟩⟩ st1
    ⟨st.nextLogId, "editFile", some y, ⟨f.name, f.project⟩⟩ X hwf1 hl1 rfl rfl
  refine ⟨X, st1, _, hw1, hw2, hl1, ?_⟩
  rw [hcoal, hn1]
  rfl

/-- Witness for the coalescing-burst theorem on the single-file P project
state: the two writes succeed and the log tops carry Y then Z over the
same remainder. -/
theorem writeFile_coalesces_burst_witness :
    ∃ X st1 st2,
      writeFile (md5 (md5 "P" ++ "A")) (some "Y") afterNewFileAState = .ok ((), st1) ∧
      writeFile (md5 (md5 "P" ++ "A")) (some "Z") st1 = .ok ((), st2) ∧
      st1.changeLogs = ⟨1, "editFile", some "Y", ⟨"A", md5 "P"⟩⟩ :: X ∧
      st2.changeLogs = ⟨2, "editFile", some "Z", ⟨"A", md5 "P"⟩⟩ :: X := by
  have hwf : StateWF afterNewFileAState :=
    ⟨Nat.one_pos, fun e he => absurd he (List.not_mem_nil e), List.Pairwise.nil⟩
  exact writeFile_coalesces_burst (md5 (md5 "P" ++ "A")) "Y" "Z" afterNewFileAState
    (newFileRecord (md5 "P") "A" "x" 0) hwf rfl

/-- C9 (amended): the mutating File operations writeFile, deleteFile,
renameFile and newFile each push at least one change-log entry recording
the mutation (the new top entry carries a fresh key), whereas newProject,
deleteProject and setFileToRun push none: they leave the change log
exactly as it was. -/
theorem file_ops_log_project_ops_do_not :
    (∀ nm st r st1, newProject nm st = .ok (r, st1) → st1.changeLogs = st.changeLogs) ∧
    (∀ pid st, (deleteProject pid st).changeLogs = st.changeLogs) ∧
    (∀ pid q fn st r st1, setFileToRun pid q fn st = .ok (r, st1) →
      st1.changeLogs = st.changeLogs) ∧
    (∀ fid co st r st1, writeFile fid co st = .ok (r, st1) →
      ∃ tg rest, st1.changeLogs = ⟨st.nextLogId, "editFile", co, tg⟩ :: rest) ∧
    (∀ fid st r st1, deleteFile fid st = .ok (r, st1) →
      ∃ tg rest, st1.changeLogs = ⟨st.nextLogId, "deleteFile", none, tg⟩ :: rest) ∧
    (∀ fid nn st r st1, renameFile fid nn st = .ok (r, st1) →
      ∃ tg rest, st1.changeLogs = ⟨st.nextLogId + 1, "deleteFile", none, tg⟩ :: rest) ∧
    (∀ pid nm c b st r st1, newFile pid nm c b st = .ok (r, st1) →
      ∃ co tg rest, st1.changeLogs = ⟨st.nextLogId, "newFile", co, tg⟩ :: rest) := by
  refine ⟨?_, ?_, ?_, ?_, ?_, ?_, ?_⟩
  · intro nm st r st1 h
    unfold newProject projectsAdd at h
    dsimp only at h
    cases hfind : st.projects.find? (fun q => q.id == md5 nm) with
    | some p =>
      rw [hfind] at h
      exact absurd h (by simp)
    | none =>
      rw [hfind] at h
      dsimp only at h
      unfold getProject at h
      rw [List.find?_cons_of_pos _ (by simp)] at h
      dsimp only at h
      simp only [Except.ok.injEq, Prod.mk.injEq] at h
      rw [← h.2]
  · intro pid st
    rfl
  · intro pid q fn st r st1 h
    unfold setFileToRun getProject at h
    cases hfind : st.projects.find? (fun p => p.id == pid) with
    | none =>
      rw [hfind] at h
      exact absurd h (by simp)
    | some p =>
      rw [hfind] at h
      dsimp only at h
      simp only [Except.ok.injEq, Prod.mk.injEq] at h
      rw [← h.2]
      rfl
  · intro fid co st r st1 h
    unfold writeFile readFile at h
    cases hfind : st.files.find? (fun g => g.id == fid) with
    | none =>
      rw [hfind] at h
      exact absurd h (by simp)
    | some f =>
      rw [hfind] at h
      dsimp only at h
      simp only [Except.ok.injEq, Prod.mk.injEq] at h
      obtain ⟨_, _, _, _, _, ⟨rest, hr⟩, _⟩ :=
        pushChangeLog_fields ⟨"editFile", co, ⟨f.name, f.project⟩⟩ st
      refine ⟨⟨f.name, f.project⟩, rest, ?_⟩
      rw [← h.2]
      exact hr
  · intro fid st r st1 h
    unfold deleteFile readFile at h
    cases hfind : st.files.find? (fun g => g.id == fid) with
    | none =>
      rw [hfind] at h
      exact absurd h (by simp)
    | some f =>
      rw [hfind] at h
      dsimp only at h
      obtain ⟨_, hpr, _, _, _, ⟨rest, hr⟩, _⟩ :=
        pushChangeLog_fields ⟨"deleteFile", none, ⟨f.name, f.project⟩⟩
          { st with files := st.files.filter (fun g => !(g.id == fid)) }
      unfold getProject at h
      rw [hpr] at h
      cases hp : st.projects.find? (fun p => p.id == f.project) with
      | none =>
        rw [hp] at h
        exact absurd h (by simp)
      | some proj =>
        rw [hp] at h
        dsimp only at h
        simp only [Except.ok.injEq, Prod.mk.injEq] at h
        refine ⟨⟨f.name, f.project⟩, rest, ?_⟩
        rw [← h.2]
        exact hr
  · intro fid nn st r st1 h
    unfold renameFile readFile at h
    cases hfind : st.files.find? (fun g => g.id == fid) with
    | none =>
      rw [hfind] at h
      exact absurd h (by simp)
    | some f =>
      rw [hfind] at h
      dsimp only at h
      simp only [Except.ok.injEq, Prod.mk.injEq] at h
      obtain ⟨_, _, _, hn4, _, _, _⟩ :=
        pushChangeLog_fields ⟨"newFile", f.contents, ⟨nn, f.project⟩⟩
          (filesUpdate fid (fun g => { g with name := nn }) st)
      obtain ⟨_, _, _, _, _, ⟨rest, hr⟩, _⟩ :=
        pushChangeLog_fields ⟨"deleteFile", none, ⟨f.name, f.project⟩⟩
          (pushChangeLog ⟨"newFile", f.contents, ⟨nn, f.project⟩⟩
            (filesUpdate fid (fun g => { g with name := nn }) st)).2
      rw [hn4] at hr
      refine ⟨⟨f.name, f.project⟩, rest, ?_⟩
      rw [← h.2]
      exact hr
  · intro pid nm c b st r st1 h
    have hne1 : ("newFile" : String) ≠ "editFile" := by decide
    unfold newFile at h
    cases hdec : decodeNewFileContents b c with
    | none =>
      rw [hdec] at h
      exact absurd h (by simp)
    | some d =>
      rw [hdec] at h
      dsimp only at h
      by_cases hg : (st.files.filter (fun f => f.name == nm && f.project == pid)).length > 0
      · rw [if_pos hg] at h
        exact absurd h (by simp)
      · rw [if_neg hg] at h
        unfold getProject at h
        cases hp : st.projects.find? (fun p => p.id == pid) with
        | none =>
          rw [hp] at h
          exact absurd h (by simp)
        | some proj =>
          rw [hp] at h
          dsimp only at h
          unfold filesAdd at h
          dsimp only at h
          cases ha : st.files.find? (fun g => g.id == md5 (pid ++ nm)) with
          | some g0 =>
            rw [ha] at h
            exact absurd h (by simp)
          | none =>
            rw [ha] at h
            dsimp only at h
            rw [pushChangeLog_non_edit ⟨"newFile", some d, ⟨nm, pid⟩⟩ _ hne1] at h
            unfold readFile changeLogsPut at h
            dsimp only at h
            rw [List.find?_cons_of_pos _ (by simp)] at h
            dsimp only at h
            simp only [Except.ok.injEq, Prod.mk.injEq] at h
            refine ⟨some d, ⟨nm, pid⟩, st.changeLogs, ?_⟩
            rw [← h.2]

/-- Witness for the logging theorem: creating project Q leaves the log
unchanged, and a writeFile on the single-file P project state leaves a
fresh editFile entry on top. -/
theorem file_ops_log_project_ops_do_not_witness :
    (∃ st1, newProject "Q" initState = .ok (⟨md5 "Q", "Q", 0⟩, st1) ∧
      st1.changeLogs = initState.changeLogs) ∧
    (∃ st1, writeFile (md5 (md5 "P" ++ "A")) (some "Y") afterNewFileAState = .ok ((), st1) ∧
      ∃ tg rest, st1.changeLogs = ⟨1, "editFile", some "Y", tg⟩ :: rest) := by
  constructor
  · refine ⟨{ initState with projects := [⟨md5 "Q", "Q", [], 0, []⟩] }, rfl, ?_⟩
    exact file_ops_log_project_ops_do_not.1 "Q" initState _ _ rfl
  · refine ⟨_, rfl, ?_⟩
    exact file_ops_log_project_ops_do_not.2.2.2.1 (md5 (md5 "P" ++ "A")) (some "Y")
      afterNewFileAState () _ rfl

/-- Replaying a batch that contains an entry with an unrecognized type tag
never completes: the loop either rejects earlier or reaches the entry and
throws. -/
theorem changesLoop_unknown_errors : ∀ (logs : List ChangeLog) (st : DBState),
    (∃ c ∈ logs, c.type ≠ "newFile" ∧ c.type ≠ "deleteFile" ∧ c.type ≠ "editFile") →
    ∃ e, changesLoop logs st = .error e := by
  intro logs
  induction logs with
  | nil =>
    intro st h
    obtain ⟨c, hc, _⟩ := h
    exact absurd hc (List.not_mem_nil c)
  | cons c0 rest ih =>
    intro st h
    obtain ⟨c, hc, hu⟩ := h
    cases hap : applyOneChange c0 st with
    | error e =>
      refine ⟨e, ?_⟩
      unfold changesLoop
      rw [hap]
    | ok st2 =>
      rcases List.mem_cons.mp hc with hceq | hcrest
      · exfalso
        subst hceq
        unfold applyOneChange at hap
        have h1 : (c.type == "deleteFile") = false := beq_eq_false_iff_ne.mpr hu.2.1
        have h2 : (c.type == "editFile") = false := beq_eq_false_iff_ne.mpr hu.2.2
        have h3 : (c.type == "newFile") = false := beq_eq_false_iff_ne.mpr hu.1
        rw [h1, h2, h3] at hap
        simp only [Bool.false_eq_true, if_false] at hap
        exact absurd hap (by simp)
      · obtain ⟨e, he⟩ := ih st2 ⟨c, hcrest, hu⟩
        refine ⟨e, ?_⟩
        unfold changesLoop
        rw [hap]
        dsimp only
        exact he

/-- C2: reconciliation failure semantics.  First: whenever applyChanges
rejects, the transaction aborts and the caller keeps the exact pre-call
state, so nothing of the batch is applied and the local change log is not
cleared.  Second: a batch containing a remote entry whose type is not
newFile, deleteFile or editFile always rejects (the unknown tag is fatal
for the whole batch). -/
theorem applyChanges_error_aborts_batch :
    (∀ logs nps dps st e, applyChanges logs nps dps st = .error e →
      runTx (applyChanges logs nps dps) st = (none, st)) ∧
    (∀ logs nps dps st,
      (∃ c ∈ logs, c.type ≠ "newFile" ∧ c.type ≠ "deleteFile" ∧ c.type ≠ "editFile") →
      ∃ e, applyChanges logs nps dps st = .error e) := by
  constructor
  · intro logs nps dps st e h
    unfold runTx
    rw [h]
  · intro logs nps dps st h
    unfold applyChanges
    cases hnp : newProjectsLoop nps st with
    | error e =>
      exact ⟨e, rfl⟩
    | ok st1 =>
      obtain ⟨e, he⟩ := changesLoop_unknown_errors logs st1 h
      refine ⟨e, ?_⟩
      dsimp only
      rw [he]

/-- Witness for the abort theorem: a batch holding one bogus-typed entry
rejects on the empty store and the transaction returns the store
unchanged. -/
theorem applyChanges_error_aborts_batch_witness :
    runTx (applyChanges [⟨"bogus", none, ⟨"f", "p"⟩⟩] [] []) initState = (none, initState) := by
  obtain ⟨e, he⟩ := applyChanges_error_aborts_batch.2 [⟨"bogus", none, ⟨"f", "p"⟩⟩] [] []
    initState ⟨⟨"bogus", none, ⟨"f", "p"⟩⟩, List.mem_cons_self _ _, by decide, by decide, by decide⟩
  exact applyChanges_error_aborts_batch.1 _ _ _ _ e he

/-- C1: on a store whose project named N exists and holds no file f1 (and
whose derived file id is free), applyChanges with the remote log
newFile f1, editFile f1 to v2, deleteFile f1 succeeds; afterwards the
files table is back to what it was, in particular no file f1 exists in
the project, and the local change log holds no entries. -/
theorem applyChanges_create_edit_delete_roundtrip (st : DBState) (N v1 v2 : String)
    (p : ProjectStored)
    (hp : st.projects.find? (fun q => q.id == md5 N) = some p)
    (hempty : st.files.filter (fun f => f.name == "f1" && f.project == md5 N) = [])
    (hfid : st.files.find? (fun f => f.id == md5 (md5 N ++ "f1")) = none) :
    ∃ st2,
      applyChanges [⟨"newFile", some v1, ⟨"f1", N⟩⟩, ⟨"editFile", some v2, ⟨"f1", N⟩⟩,
          ⟨"deleteFile", none, ⟨"f1", N⟩⟩] [] [] st = .ok ((), st2) ∧
      st2.files = st.files ∧
      st2.files.find? (fun f => f.name == "f1" && f.project == md5 N) = none ∧
      st2.changeLogs = [] := by
  have hall : ∀ g ∈ st.files, (g.id == md5 (md5 N ++ "f1")) = false := by
    intro g hg
    simpa using List.find?_eq_none.mp hfid g hg
  have hrecid : ((newFileRecord (md5 N) "f1" v1 st.time).id == md5 (md5 N ++ "f1")) = true := by
    simp [newFileRecord]
  have h1 := newFile_ok (md5 N) "f1" v1 false v1 st p rfl hempty hp hfid
  have hstep1 : applyOneChange ⟨"newFile", some v1, ⟨"f1", N⟩⟩ st =
      .ok { st with
            files := newFileRecord (md5 N) "f1" v1 st.time :: st.files,
            changeLogs := ⟨st.nextLogId, "newFile", some v1, ⟨"f1", md5 N⟩⟩ :: st.changeLogs,
            nextLogId := st.nextLogId + 1 } := by
    unfold applyOneChange
    dsimp only
    rw [if_neg (by decide : ¬ ((("newFile" : String) == "deleteFile") = true))]
    rw [if_neg (by decide : ¬ ((("newFile" : String) == "editFile") = true))]
    rw [if_pos (by decide : (("newFile" : String) == "newFile") = true)]
    rw [show (some v1).getD "" = v1 from rfl]
    rw [h1]
    rfl
  set stA : DBState := { st with
      files := newFileRecord (md5 N) "f1" v1 st.time :: st.files,
      changeLogs := ⟨st.nextLogId, "newFile", some v1, ⟨"f1", md5 N⟩⟩ :: st.changeLogs,
      nextLogId := st.nextLogId + 1 } with hstA
  have hfA : stA.files.find? (fun g => g.id == md5 (md5 N ++ "f1"))
      = some (newFileRecord (md5 N) "f1" v1 st.time) :=
    List.find?_cons_of_pos st.files (by simp [newFileRecord])
  have h2 := writeFile_ok (md5 (md5 N ++ "f1")) (some v2) stA
    (newFileRecord (md5 N) "f1" v1 st.time) hfA
  have hne1 : ("newFile" : String) ≠ "editFile" := by decide
  have hpushA := pushChangeLog_top_non_edit
    ⟨"editFile", some v2, ⟨(newFileRecord (md5 N) "f1" v1 st.time).name,
      (newFileRecord (md5 N) "f1" v1 st.time).project⟩⟩ stA
    ⟨st.nextLogId, "newFile", some v1, ⟨"f1", md5 N⟩⟩ st.changeLogs
    (by rw [hstA]) hne1
  rw [hpushA] at h2
  have hmapA : stA.files.map
      (fun g => if g.id == md5 (md5 N ++ "f1") then writeFilePatch (some v2) stA.time g else g)
      = writeFilePatch (some v2) stA.time (newFileRecord (md5 N) "f1" v1 st.time) :: st.files := by
    show (newFileRecord (md5 N) "f1" v1 st.time :: st.files).map
      (fun g => if g.id == md5 (md5 N ++ "f1") then writeFilePatch (some v2) stA.time g else g)
      = writeFilePatch (some v2) stA.time (newFileRecord (md5 N) "f1" v1 st.time) :: st.files
    rw [List.map_cons]
    dsimp only
    rw [if_pos hrecid, map_if_eq_self _ _ st.files hall]
  rw [hmapA] at h2
  have hstep2 : applyOneChange ⟨"editFile", some v2, ⟨"f1", N⟩⟩ stA =
      .ok { st with
            files := writeFilePatch (some v2) st.time (newFileRecord (md5 N) "f1" v1 st.time)
              :: st.files,
            changeLogs := ⟨st.nextLogId + 1, "editFile", some v2, ⟨"f1", md5 N⟩⟩ ::
              ⟨st.nextLogId, "newFile", some v1, ⟨"f1", md5 N⟩⟩ :: st.changeLogs,
            nextLogId := st.nextLogId + 2 } := by
    unfold applyOneChange
    dsimp only
    rw [if_neg (by decide : ¬ ((("editFile" : String) == "deleteFile") = true))]
    rw [if_pos (by decide : (("editFile" : String) == "editFile") = true)]
    rw [h2]
    rfl
  set stB : DBState := { st with
      files := writeFilePatch (some v2) st.time (newFileRecord (md5 N) "f1" v1 st.time)
        :: st.files,
      changeLogs := ⟨st.nextLogId + 1, "editFile", some v2, ⟨"f1", md5 N⟩⟩ ::
        ⟨st.nextLogId, "newFile", some v1, ⟨"f1", md5 N⟩⟩ :: st.changeLogs,
      nextLogId := st.nextLogId + 2 } with hstB
  have hpatchid : ((writeFilePatch (some v2) st.time
      (newFileRecord (md5 N) "f1" v1 st.time)).id == md5 (md5 N ++ "f1")) = true := by
    simp [writeFilePatch, newFileRecord]
  have hfB : stB.files.find? (fun g => g.id == md5 (md5 N ++ "f1"))
      = some (writeFilePatch (some v2) st.time (newFileRecord (md5 N) "f1" v1 st.time)) :=
    List.find?_cons_of_pos st.files (by simp [writeFilePatch, newFileRecord])
  have hpB : stB.projects.find? (fun q => q.id ==
      (writeFilePatch (some v2) st.time (newFileRecord (md5 N) "f1" v1 st.time)).project)
      = some p := hp
  have h3 := deleteFile_ok (md5 (md5 N ++ "f1")) stB
    (writeFilePatch (some v2) st.time (newFileRecord (md5 N) "f1" v1 st.time)) p hfB hpB
  have hfilterB : stB.files.filter (fun g => !(g.id == md5 (md5 N ++ "f1"))) = st.files := by
    show (writeFilePatch (some v2) st.time (newFileRecord (md5 N) "f1" v1 st.time)
      :: st.files).filter (fun g => !(g.id == md5 (md5 N ++ "f1"))) = st.files
    rw [List.filter_cons]
    have hc : (!((writeFilePatch (some v2) st.time
        (newFileRecord (md5 N) "f1" v1 st.time)).id == md5 (md5 N ++ "f1"))) = false := by
      simp [writeFilePatch, newFileRecord]
    rw [hc, if_neg Bool.false_ne_true]
    exact filter_eq_self_of_true _ st.files (by intro g hg; simpa using hall g hg)
  rw [hfilterB] at h3
  have hstep3 : applyOneChange ⟨"deleteFile", none, ⟨"f1", N⟩⟩ stB =
      .ok { st with
            projects := st.projects.map (fun q =>
              if q.id == md5 N then deleteFilePrune (md5 (md5 N ++ "f1")) p else q),
            changeLogs := ⟨st.nextLogId + 2, "deleteFile", none, ⟨"f1", md5 N⟩⟩ ::
              ⟨st.nextLogId + 1, "editFile", some v2, ⟨"f1", md5 N⟩⟩ ::
              ⟨st.nextLogId, "newFile", some v1, ⟨"f1", md5 N⟩⟩ :: st.changeLogs,
            nextLogId := st.nextLogId + 3 } := by
    unfold applyOneChange
    dsimp only
    rw [if_pos (by decide : (("deleteFile" : String) == "deleteFile") = true)]
    rw [h3]
    rfl
  refine ⟨{ st with
      projects := st.projects.map (fun q =>
        if q.id == md5 N then deleteFilePrune (md5 (md5 N ++ "f1")) p else q),
      changeLogs := [],
      nextLogId := st.nextLogId + 3 }, ?_, rfl, ?_, rfl⟩
  · unfold applyChanges
    simp only [newProjectsLoop]
    simp only [changesLoop, hstep1, hstep2, hstep3]
    rfl
  · exact List.find?_eq_none.mpr (fun g hg => by
      simpa using List.filter_eq_nil_iff.mp hempty g hg)

/-- Witness for the roundtrip theorem on the concrete project-P store. -/
theorem applyChanges_create_edit_delete_roundtrip_witness :
    ∃ st2,
      applyChanges [⟨"newFile", some "v1", ⟨"f1", "P"⟩⟩, ⟨"editFile", some "v2", ⟨"f1", "P"⟩⟩,
          ⟨"deleteFile", none, ⟨"f1", "P"⟩⟩] [] [] projectPState = .ok ((), st2) ∧
      st2.files = projectPState.files ∧
      st2.files.find? (fun f => f.name == "f1" && f.project == md5 "P") = none ∧
      st2.changeLogs = [] :=
  applyChanges_create_edit_delete_roundtrip projectPState "P" "v1" "v2"
    ⟨md5 "P", "P", [], 0, []⟩ rfl rfl rfl
